import Mathlib

/-!
Shallow embedding of the SAIL codec discovery, registry and context
lifecycle subsystem (`src/libsail/context_private.c`) and of the
compression-level descriptor validity predicate
(`src/bindings/c++/compression_level-c++.cpp`).

Conventions of the embedding:
* C strings are modelled as `List Char`.
* The non-Windows (`#else`) branches of the platform conditionals are
  embedded: path separator `/`, module suffix `so`, `opendir`/`readdir`
  enumeration, `setenv LD_LIBRARY_PATH` extension.
* External collaborators (the filesystem, environment variables, the
  metadata parser `codec_read_info`, and the outcome of the `setenv`
  call) are abstracted into an `Env` record of oracles; the discovery
  logic itself is translated statement by statement from the source.
* Allocation failures are modelled only where the source explicitly
  tolerates them per entry (`build_full_path` under
  `SAIL_TRY_OR_EXECUTE(..., continue)`), via the `build_path_ok` oracle;
  other allocations are modelled as succeeding.
* `double` fields of `sail_compression_level` are modelled as `Rat`:
  `is_valid` only compares the fields, and the ordering of the finite
  doubles is the rational ordering.
-/

namespace Sail

/-- Status codes (`sail_status_t`) used by the embedded fragment. -/
inductive SailStatus where
  | ok
  | errorMemoryAllocation
  | errorEnvUpdate
  | errorListDir
  | errorReadCodecInfo
  deriving DecidableEq, Repr

/-- C `strstr`, returning the index of the first occurrence of `needle`
as a contiguous substring of `hay`, or `none` when it does not occur. -/
def strstr : List Char → List Char → Option Nat
  | [], needle => if needle.isPrefixOf [] then some 0 else none
  | c :: t, needle =>
    if needle.isPrefixOf (c :: t) then some 0
    else (strstr t needle).map (· + 1)

/-- The metadata-file suffix `".codec.info"`. -/
def CODEC_INFO_SUFFIX : List Char := ".codec.info".data

/-- The non-Windows dynamic-module suffix `"so"` (`LIB_SUFFIX`). -/
def LIB_SUFFIX : List Char := "so".data

/-- Parsed codec metadata (`struct sail_codec_info`): the fields the
claims observe, `path` being the derived module path. -/
structure sail_codec_info where
  name : List Char
  description : List Char
  version : List Char
  path : List Char
  deriving DecidableEq, Repr

/-- The context (`struct sail_context`); the singly linked
`sail_codec_info_node` chain is modelled as the list of its
`codec_info` payloads in chain order. -/
structure sail_context where
  initialized : Bool
  codec_info_node : List sail_codec_info
  deriving DecidableEq, Repr

/-- External collaborators of the discovery pass, abstracted as oracles:
environment variables (memoized, hence plain fields), filesystem tests,
directory enumeration (`none` = `opendir` failed), the metadata parser
`codec_read_info` (declared in the library but outside the embedded
sources), the per-entry `sail_concat` allocation outcome inside
`build_full_path`, and the outcome of the `setenv` call that extends
`LD_LIBRARY_PATH` (keyed by the `lib` directory being appended). -/
structure Env where
  getenv_SAIL_CODECS_PATH : Option (List Char)
  getenv_SAIL_MY_CODECS_PATH : Option (List Char)
  compiled_in_codecs_path : List Char
  is_dir : List Char → Bool
  is_file : List Char → Bool
  listDir : List Char → Option (List (List Char))
  codec_read_info : List Char → Except SailStatus sail_codec_info
  build_path_ok : List Char → List Char → Bool
  env_update_ok : List Char → Bool

/-- `sail_codecs_path()`: the primary codecs path, from
`SAIL_CODECS_PATH` or the compiled-in default (non-Windows branch; the
thread-local memoization is the identity here because the reads are
modelled as fixed fields of `Env`). -/
def sail_codecs_path (env : Env) : List Char :=
  match env.getenv_SAIL_CODECS_PATH with
  | none => env.compiled_in_codecs_path
  | some e => e

/-- `client_codecs_path()`: the secondary (user) codecs path from
`SAIL_MY_CODECS_PATH`; `none` means not configured. -/
def client_codecs_path (env : Env) : Option (List Char) :=
  env.getenv_SAIL_MY_CODECS_PATH

/-- `update_lib_path()` (non-Windows branch): append `<codecs_path>/lib`
to `LD_LIBRARY_PATH`. A missing `lib` directory is not an error; a
failing `setenv` yields `SAIL_ERROR_ENV_UPDATE`. The concatenation with
the previous `LD_LIBRARY_PATH` value is not observable to any claim and
is not recorded. -/
def update_lib_path (env : Env) (codecs_path : List Char) : SailStatus :=
  let full_path_to_lib := codecs_path ++ "/lib".data
  if env.is_dir full_path_to_lib = false then
    SailStatus.ok
  else if env.env_update_ok full_path_to_lib then
    SailStatus.ok
  else
    SailStatus.errorEnvUpdate

/-- `alloc_context()`: a fresh context is uninitialized with an empty
chain; `sail_malloc` failure is `SAIL_ERROR_MEMORY_ALLOCATION`. -/
def alloc_context (alloc_ok : Bool) : Except SailStatus sail_context :=
  if alloc_ok then
    Except.ok { initialized := false, codec_info_node := [] }
  else
    Except.error SailStatus.errorMemoryAllocation

/-- `build_full_path()` (non-Windows branch): `codecs_path / name`; the
`sail_concat` allocation outcome is the `build_path_ok` oracle. -/
def build_full_path (env : Env) (codecs_path name : List Char) :
    Except SailStatus (List Char) :=
  if env.build_path_ok codecs_path name then
    Except.ok (codecs_path ++ "/".data ++ name)
  else
    Except.error SailStatus.errorMemoryAllocation

/-- Module-path derivation step of `build_codec_from_codec_info()`:
locate `".codec.info"` in the full path with `strstr` (failing with
`SAIL_ERROR_MEMORY_ALLOCATION` when absent; `codec_full_path_length` is
the index of the first occurrence), copy
`codec_full_path_length + strlen(LIB_SUFFIX) + 1` characters
(`sail_strdup_length`), and overwrite from offset
`codec_full_path_length + 1` with `LIB_SUFFIX` (`strcpy`, which also
terminates the string there, truncating anything behind it). -/
def derive_codec_full_path (codec_info_full_path : List Char) :
    Except SailStatus (List Char) :=
  match strstr codec_info_full_path CODEC_INFO_SUFFIX with
  | none => Except.error SailStatus.errorMemoryAllocation
  | some codec_full_path_length =>
    Except.ok
      (((codec_info_full_path.take
            (codec_full_path_length + LIB_SUFFIX.length + 1)).take
          (codec_full_path_length + 1)) ++ LIB_SUFFIX)

/-- `build_codec_from_codec_info()`: derive the module path (see
`derive_codec_full_path`), then parse the metadata file with
`codec_read_info` and store the derived path into the parsed
`codec_info`. -/
def build_codec_from_codec_info (env : Env) (codec_info_full_path : List Char) :
    Except SailStatus sail_codec_info :=
  match derive_codec_full_path codec_info_full_path with
  | Except.error st => Except.error st
  | Except.ok codec_full_path =>
    match env.codec_read_info codec_info_full_path with
    | Except.error st => Except.error st
    | Except.ok codec_info => Except.ok { codec_info with path := codec_full_path }

/-- Loop body of the directory walk in `init_context()` (non-Windows
branch): build the full path (on failure `continue`), handle regular
files only, select the entry when `".codec.info"` occurs anywhere in
the full path, and keep the built codec info only when
`build_codec_from_codec_info` returns `SAIL_OK`. -/
def init_context_entry (env : Env) (codecs_path name : List Char) :
    Option sail_codec_info :=
  match build_full_path env codecs_path name with
  | Except.error _ => none
  | Except.ok full_path =>
    if env.is_file full_path then
      if (strstr full_path CODEC_INFO_SUFFIX).isSome then
        match build_codec_from_codec_info env full_path with
        | Except.ok node => some node
        | Except.error _ => none
      else none
    else none

/-- One iteration of the search-path loop of `init_context()`
(non-Windows branch): when `opendir` fails the error is logged and the
loop continues, the path contributing nothing; otherwise every
enumerated entry goes through `init_context_entry` and the successful
ones are appended in enumeration order. -/
def walk_codecs_path (env : Env) (codecs_path : List Char) :
    List sail_codec_info :=
  match env.listDir codecs_path with
  | none => []
  | some entries => entries.filterMap (init_context_entry env codecs_path)

/-- Status of the `SAIL_TRY(update_lib_path(their_codecs_path))` call of
`init_context()`, guarded by `their_codecs_path != NULL`. -/
def client_update_status (env : Env) : SailStatus :=
  match client_codecs_path env with
  | none => SailStatus.ok
  | some p => update_lib_path env p

/-- The search-path loop of `init_context()`: the fixed
`codec_search_paths` array `{ our_codecs_path, their_codecs_path }` is
walked in order, `NULL` entries skipped, and the codec infos found for
each path are appended in encounter order. -/
def discovered (env : Env) : List sail_codec_info :=
  ([some (sail_codecs_path env), client_codecs_path env]).foldl
    (fun acc cp =>
      match cp with
      | none => acc
      | some codecs_path => acc ++ walk_codecs_path env codecs_path)
    []

/-- `init_context()`: return immediately when already initialized,
otherwise set `initialized = true` first, extend the loader path for
the primary path and (when configured) the secondary path — both under
`SAIL_TRY`, so either failure propagates — then walk both search paths
appending found codec infos through the `last_codec_info_node` tail
pointer. The tail-pointer append overwrites `context->codec_info_node`
with the first found node, so the previous chain survives only when
nothing is found. The preload pass (`SAIL_FLAG_PRELOAD_CODECS`) ignores
load failures and does not change the chain, so it is not recorded. -/
def init_context (env : Env) (context0 : sail_context) (_flags : Nat) :
    SailStatus × sail_context :=
  if context0.initialized then
    (SailStatus.ok, context0)
  else if update_lib_path env (sail_codecs_path env) ≠ SailStatus.ok then
    (update_lib_path env (sail_codecs_path env), { context0 with initialized := true })
  else if client_update_status env ≠ SailStatus.ok then
    (client_update_status env, { context0 with initialized := true })
  else
    (SailStatus.ok,
      { context0 with
        initialized := true,
        codec_info_node :=
          if (discovered env).isEmpty then context0.codec_info_node
          else discovered env })

/-- `destroy_context()`: a `NULL` context is accepted; freeing the chain
and the context is memory management with no value-level effect. -/
def destroy_context (_context : Option sail_context) : SailStatus :=
  SailStatus.ok

/-- Actions of `control_tls_context()`. -/
inductive SailContextAction where
  | allocate
  | fetch
  | destroy
  deriving DecidableEq, Repr

/-- Result of one `control_tls_context()` call: the returned status, the
value assigned to `*context` (`none` when the call does not assign it),
and the thread-local slot afterwards. -/
structure TlsResult where
  status : SailStatus
  assigned : Option (Option sail_context)
  tls : Option sail_context
  deriving DecidableEq, Repr

/-- `control_tls_context()`: allocate stores a fresh context in the
empty slot (propagating allocation failure without touching the slot),
fetch returns the slot as is, destroy releases the slot's context
(tolerating an empty slot) and clears the slot. -/
def control_tls_context (alloc_ok : Bool) (tls_context : Option sail_context) :
    SailContextAction → TlsResult
  | SailContextAction.allocate =>
    match tls_context with
    | none =>
      match alloc_context alloc_ok with
      | Except.ok c => { status := SailStatus.ok, assigned := some (some c), tls := some c }
      | Except.error e => { status := e, assigned := none, tls := none }
    | some c => { status := SailStatus.ok, assigned := some (some c), tls := some c }
  | SailContextAction.fetch =>
    { status := SailStatus.ok, assigned := some tls_context, tls := tls_context }
  | SailContextAction.destroy =>
    { status := SailStatus.ok, assigned := none, tls := none }

/-- Compression-level descriptor (`struct sail_compression_level`);
the `double` fields are modelled as rationals. -/
structure sail_compression_level where
  level_min : Rat
  level_max : Rat
  level_default : Rat
  level_step : Rat
  deriving DecidableEq, Repr

/-- `sail::compression_level::is_valid()`. -/
def is_valid (cl : sail_compression_level) : Bool :=
  cl.level_min < cl.level_max &&
    cl.level_default ≥ cl.level_min &&
    cl.level_default ≤ cl.level_max

/-- Specification-side validity of one directory entry, written from the
spec's words for comparison with the walk: the full path builds, the
entry is a regular file, the metadata suffix occurs in the full path,
and the metadata parses. -/
def spec_entry_ok (env : Env) (codecs_path name : List Char) : Bool :=
  env.build_path_ok codecs_path name &&
    env.is_file (codecs_path ++ "/".data ++ name) &&
    (strstr (codecs_path ++ "/".data ++ name) CODEC_INFO_SUFFIX).isSome &&
    (env.codec_read_info (codecs_path ++ "/".data ++ name)).isOk

/-- Specification-side descriptor of a valid entry: what
`build_codec_from_codec_info` produces for it (junk on invalid entries,
where it is never used). -/
def spec_entry_descriptor (env : Env) (codecs_path name : List Char) :
    sail_codec_info :=
  match build_codec_from_codec_info env (codecs_path ++ "/".data ++ name) with
  | Except.ok ci => ci
  | Except.error _ => { name := [], description := [], version := [], path := [] }

/-- A concrete environment: primary path `/codecs` holding one valid
codec metadata file, secondary path `/user` configured, and the
`setenv` extending the loader path failing exactly for `/user/lib`. -/
def c1_env : Env where
  getenv_SAIL_CODECS_PATH := some "/codecs".data
  getenv_SAIL_MY_CODECS_PATH := some "/user".data
  compiled_in_codecs_path := "/codecs".data
  is_dir := fun _ => true
  is_file := fun _ => true
  listDir := fun p => if p = "/codecs".data then some ["jpeg.codec.info".data] else some []
  codec_read_info := fun _ =>
    Except.ok { name := "jpeg".data, description := "JPEG".data, version := "1".data, path := [] }
  build_path_ok := fun _ _ => true
  env_update_ok := fun l => if l = "/user/lib".data then false else true

/-- A concrete environment where extending the loader path fails for
every path, in particular for the primary one. -/
def c9_env : Env where
  getenv_SAIL_CODECS_PATH := none
  getenv_SAIL_MY_CODECS_PATH := none
  compiled_in_codecs_path := "/codecs".data
  is_dir := fun _ => true
  is_file := fun _ => true
  listDir := fun _ => some []
  codec_read_info := fun _ => Except.error SailStatus.errorReadCodecInfo
  build_path_ok := fun _ _ => true
  env_update_ok := fun _ => false

/-- A concrete environment: primary path `/codecs` holding two valid
metadata files, one file with the wrong suffix, one unparsable metadata
file and one entry whose full path cannot be built; no secondary path;
loader-path extension succeeds. -/
def c4_env : Env where
  getenv_SAIL_CODECS_PATH := some "/codecs".data
  getenv_SAIL_MY_CODECS_PATH := none
  compiled_in_codecs_path := "/codecs".data
  is_dir := fun _ => false
  is_file := fun _ => true
  listDir := fun p =>
    if p = "/codecs".data then
      some ["jpeg.codec.info".data, "readme.txt".data, "broken.codec.info".data,
            "oom.codec.info".data, "png.codec.info".data]
    else some []
  codec_read_info := fun p =>
    if p = "/codecs/broken.codec.info".data then
      Except.error SailStatus.errorReadCodecInfo
    else
      Except.ok { name := "codec".data, description := "demo".data, version := "1".data, path := [] }
  build_path_ok := fun _ name => name ≠ "oom.codec.info".data
  env_update_ok := fun _ => true

/-- A concrete environment: the primary path `/codecs` cannot be
enumerated (`opendir` fails), while the secondary path `/user` holds one
valid codec metadata file. -/
def c5_env : Env where
  getenv_SAIL_CODECS_PATH := some "/codecs".data
  getenv_SAIL_MY_CODECS_PATH := some "/user".data
  compiled_in_codecs_path := "/codecs".data
  is_dir := fun _ => false
  is_file := fun _ => true
  listDir := fun p => if p = "/user".data then some ["png.codec.info".data] else none
  codec_read_info := fun _ =>
    Except.ok { name := "png".data, description := "PNG".data, version := "1".data, path := [] }
  build_path_ok := fun _ _ => true
  env_update_ok := fun _ => true

/-- A concrete environment with both paths enumerable: primary
`/codecs` holds `jpeg` then `png`, secondary `/user` holds `webp`. -/
def c6_env : Env where
  getenv_SAIL_CODECS_PATH := some "/codecs".data
  getenv_SAIL_MY_CODECS_PATH := some "/user".data
  compiled_in_codecs_path := "/codecs".data
  is_dir := fun _ => false
  is_file := fun _ => true
  listDir := fun p =>
    if p = "/codecs".data then some ["jpeg.codec.info".data, "png.codec.info".data]
    else if p = "/user".data then some ["webp.codec.info".data]
    else none
  codec_read_info := fun p =>
    Except.ok { name := p, description := "demo".data, version := "1".data, path := [] }
  build_path_ok := fun _ _ => true
  env_update_ok := fun _ => true

/-- A concrete environment whose directory `/x` holds a regular file
`jpeg.codec.info.bak`, where the metadata suffix occurs in the middle of
the name rather than as a suffix. -/
def c10_env : Env where
  getenv_SAIL_CODECS_PATH := some "/x".data
  getenv_SAIL_MY_CODECS_PATH := none
  compiled_in_codecs_path := "/x".data
  is_dir := fun _ => false
  is_file := fun _ => true
  listDir := fun p => if p = "/x".data then some ["jpeg.codec.info.bak".data] else some []
  codec_read_info := fun _ =>
    Except.ok { name := "jpeg".data, description := "JPEG".data, version := "1".data, path := [] }
  build_path_ok := fun _ _ => true
  env_update_ok := fun _ => true

/-!
Helper lemmas: the first-occurrence theory of `strstr` and the
refinement of the per-entry walk to the specification-side predicate.
-/

/-- A list is a prefix of itself followed by anything. -/
theorem isPrefixOf_append_self (l t : List Char) : l.isPrefixOf (l ++ t) = true := by
  induction l with
  | nil => simp
  | cons a as ih => simp [ih]

/-- `isPrefixOf` gives a decomposition of the longer list. -/
theorem exists_of_isPrefixOf {l t : List Char} (h : l.isPrefixOf t = true) :
    ∃ r, t = l ++ r := by
  induction l generalizing t with
  | nil => exact ⟨t, rfl⟩
  | cons a as ih =>
    cases t with
    | nil => simp [List.isPrefixOf] at h
    | cons b bs =>
      simp only [List.isPrefixOf, Bool.and_eq_true, beq_iff_eq] at h
      obtain ⟨rfl, h2⟩ := h
      obtain ⟨r, rfl⟩ := ih h2
      exact ⟨r, rfl⟩

/-- The index returned by `strstr` is an occurrence. -/
theorem strstr_imp_prefixOf {hay needle : List Char} {i : Nat}
    (h : strstr hay needle = some i) :
    needle.isPrefixOf (hay.drop i) = true := by
  induction hay generalizing i with
  | nil =>
    simp only [strstr] at h
    split at h
    · cases h
      simpa using ‹needle.isPrefixOf ([] : List Char) = true›
    · exact absurd h (by simp)
  | cons c t ih =>
    simp only [strstr] at h
    split at h
    next hp =>
      cases h
      simpa using hp
    next hp =>
      obtain ⟨j, hj, rfl⟩ := Option.map_eq_some'.mp h
      simpa [List.drop_succ_cons] using ih hj

/-- The index returned by `strstr` is the first occurrence. -/
theorem strstr_min {hay needle : List Char} {i : Nat}
    (h : strstr hay needle = some i) :
    ∀ j, j < i → needle.isPrefixOf (hay.drop j) = false := by
  induction hay generalizing i with
  | nil =>
    intro j hj
    simp only [strstr] at h
    split at h
    · cases h
      omega
    · exact absurd h (by simp)
  | cons c t ih =>
    intro j hj
    simp only [strstr] at h
    split at h
    next hp =>
      cases h
      omega
    next hp =>
      obtain ⟨k, hk, rfl⟩ := Option.map_eq_some'.mp h
      cases j with
      | zero => simpa using Bool.eq_false_iff.mpr hp
      | succ j' =>
        rw [List.drop_succ_cons]
        exact ih hk j' (by omega)

/-- An occurrence anywhere makes `strstr` succeed. -/
theorem strstr_isSome_of_prefixOf {hay needle : List Char} {i : Nat}
    (h : needle.isPrefixOf (hay.drop i) = true) :
    (strstr hay needle).isSome = true := by
  induction hay generalizing i with
  | nil =>
    simp only [List.drop_nil] at h
    simp [strstr, h]
  | cons c t ih =>
    cases i with
    | zero =>
      simp only [List.drop_zero] at h
      simp [strstr, h]
    | succ i' =>
      rw [List.drop_succ_cons] at h
      simp only [strstr]
      split
      · simp
      · simpa [Option.isSome_map'] using ih h

/-- Characterization of `strstr` from a decomposition at the first
occurrence. -/
theorem strstr_eq_of_first_occurrence {p needle pre post : List Char}
    (hdec : p = pre ++ needle ++ post)
    (hmin : ∀ j, j < pre.length → needle.isPrefixOf (p.drop j) = false) :
    strstr p needle = some pre.length := by
  have hocc : needle.isPrefixOf (p.drop pre.length) = true := by
    subst hdec
    rw [List.append_assoc, List.drop_left]
    exact isPrefixOf_append_self needle post
  obtain ⟨j, hj⟩ := Option.isSome_iff_exists.mp (strstr_isSome_of_prefixOf hocc)
  rcases Nat.lt_trichotomy j pre.length with hlt | heq | hgt
  · have := strstr_imp_prefixOf hj
    rw [hmin j hlt] at this
    exact absurd this (by simp)
  · rw [heq] at hj
    exact hj
  · have := strstr_min hj pre.length hgt
    rw [hocc] at this
    exact absurd this (by simp)

/-- When `strstr` finds no occurrence there is no decomposition. -/
theorem no_decomposition_of_strstr_none {p needle : List Char}
    (h : strstr p needle = none) :
    ∀ pre post, p ≠ pre ++ needle ++ post := by
  intro pre post hdec
  have hocc : needle.isPrefixOf (p.drop pre.length) = true := by
    subst hdec
    rw [List.append_assoc, List.drop_left]
    exact isPrefixOf_append_self needle post
  have := strstr_isSome_of_prefixOf hocc
  rw [h] at this
  exact absurd this (by simp)

/-- Conversely, any decomposition makes `strstr` succeed. -/
theorem strstr_isSome_of_decomposition {p needle pre post : List Char}
    (hdec : p = pre ++ needle ++ post) :
    (strstr p needle).isSome = true := by
  apply strstr_isSome_of_prefixOf (i := pre.length)
  subst hdec
  rw [List.append_assoc, List.drop_left]
  exact isPrefixOf_append_self needle post

/-- The module path derived at the first occurrence `i` of the metadata
suffix is the first `i` characters followed by `".so"`. -/
theorem derive_eq_of_strstr {p : List Char} {i : Nat}
    (h : strstr p CODEC_INFO_SUFFIX = some i) :
    derive_codec_full_path p = Except.ok (p.take i ++ ".so".data) := by
  obtain ⟨r, hr⟩ := exists_of_isPrefixOf (strstr_imp_prefixOf h)
  unfold derive_codec_full_path
  rw [h]
  dsimp only
  have hmin : min (i + 1) (i + LIB_SUFFIX.length + 1) = i + 1 := by
    simp [LIB_SUFFIX]
  have hi : p[i]? = some '.' := by
    have h0 : (p.drop i)[0]? = some '.' := by
      rw [hr]
      rfl
    rw [List.getElem?_drop] at h0
    simpa using h0
  rw [List.take_take, hmin, List.take_succ, hi]
  simp [LIB_SUFFIX]

/-- The loop body keeps exactly the specification-valid entries,
producing their descriptors. -/
theorem entry_eq_spec (env : Env) (codecs_path name : List Char) :
    init_context_entry env codecs_path name =
      if spec_entry_ok env codecs_path name = true then
        some (spec_entry_descriptor env codecs_path name)
      else none := by
  unfold init_context_entry spec_entry_ok spec_entry_descriptor build_full_path
    build_codec_from_codec_info derive_codec_full_path
  cases h1 : env.build_path_ok codecs_path name <;>
    cases h2 : env.is_file (codecs_path ++ '/' :: name) <;>
      cases hs : strstr (codecs_path ++ '/' :: name) CODEC_INFO_SUFFIX <;>
        cases hr : env.codec_read_info (codecs_path ++ '/' :: name) <;>
          simp [h1, h2, hs, hr, Except.isOk, Except.toBool]

/-- The walk over an entry list keeps exactly the valid entries, in
enumeration order. -/
theorem filterMap_entry_eq (env : Env) (codecs_path : List Char)
    (entries : List (List Char)) :
    entries.filterMap (init_context_entry env codecs_path) =
      (entries.filter (spec_entry_ok env codecs_path)).map
        (spec_entry_descriptor env codecs_path) := by
  induction entries with
  | nil => rfl
  | cons e es ih =>
    rw [List.filterMap_cons, List.filter_cons, entry_eq_spec]
    by_cases h : spec_entry_ok env codecs_path e = true
    · rw [if_pos h, if_pos h]
      simp [ih]
    · rw [if_neg h, if_neg h]
      exact ih

/-- A listable directory contributes exactly its valid entries. -/
theorem walk_codecs_path_eq (env : Env) (codecs_path : List Char)
    (entries : List (List Char)) (h : env.listDir codecs_path = some entries) :
    walk_codecs_path env codecs_path =
      (entries.filter (spec_entry_ok env codecs_path)).map
        (spec_entry_descriptor env codecs_path) := by
  unfold walk_codecs_path
  rw [h]
  exact filterMap_entry_eq env codecs_path entries

/-- The two-path loop is the primary contribution followed by the
secondary one. -/
theorem discovered_eq (env : Env) :
    discovered env =
      walk_codecs_path env (sail_codecs_path env) ++
        (match client_codecs_path env with
         | none => []
         | some p => walk_codecs_path env p) := by
  unfold discovered
  cases hc : client_codecs_path env <;> simp [hc]

/-- An initialized context short-circuits `init_context`. -/
theorem init_context_of_initialized (env : Env) (ctx : sail_context) (flags : Nat)
    (h : ctx.initialized = true) :
    init_context env ctx flags = (SailStatus.ok, ctx) := by
  unfold init_context
  rw [if_pos h]

/-- Every `init_context` call leaves the context marked initialized. -/
theorem init_context_result_initialized (env : Env) (ctx : sail_context)
    (flags : Nat) :
    (init_context env ctx flags).2.initialized = true := by
  unfold init_context
  split
  next h => simpa using h
  next h =>
    split
    · rfl
    · split
      · rfl
      · rfl

/-- A second `init_context` call returns the context of the first call
unchanged, with `SAIL_OK`. -/
theorem init_context_snd_call (env : Env) (ctx : sail_context)
    (flags flags2 : Nat) :
    init_context env (init_context env ctx flags).2 flags2 =
      (SailStatus.ok, (init_context env ctx flags).2) :=
  init_context_of_initialized env _ flags2
    (init_context_result_initialized env ctx flags)

/-- When `init_context` fails, the registry chain is untouched. -/
theorem init_context_error_preserves_chain (env : Env) (ctx : sail_context)
    (flags : Nat) (hinit : ctx.initialized = false)
    (herr : (init_context env ctx flags).1 ≠ SailStatus.ok) :
    (init_context env ctx flags).2.codec_info_node = ctx.codec_info_node := by
  have hne : ¬ ctx.initialized = true := by simp [hinit]
  by_cases h1 : update_lib_path env (sail_codecs_path env) ≠ SailStatus.ok
  · unfold init_context
    rw [if_neg hne, if_pos h1]
  · by_cases h2 : client_update_status env ≠ SailStatus.ok
    · unfold init_context
      rw [if_neg hne, if_neg h1, if_pos h2]
    · exfalso
      apply herr
      unfold init_context
      rw [if_neg hne, if_neg h1, if_neg h2]

/-- The success path of `init_context` on an uninitialized context. -/
theorem init_context_success (env : Env) (ctx : sail_context) (flags : Nat)
    (hinit : ctx.initialized = false)
    (h1 : update_lib_path env (sail_codecs_path env) = SailStatus.ok)
    (h2 : client_update_status env = SailStatus.ok) :
    init_context env ctx flags =
      (SailStatus.ok,
        { ctx with
          initialized := true,
          codec_info_node :=
            if (discovered env).isEmpty then ctx.codec_info_node
            else discovered env }) := by
  have hne : ¬ ctx.initialized = true := by simp [hinit]
  unfold init_context
  rw [if_neg hne, if_neg (by simp [h1]), if_neg (by simp [h2])]

/-- A discovered list that replaces the chain only when nonempty equals
itself either way once the previous chain is empty. -/
theorem ite_isEmpty_self {α : Type} (d : List α) :
    (if d.isEmpty = true then ([] : List α) else d) = d := by
  cases d <;> simp

/-!
Claim theorems.
-/

/-- C1 counterexample: in `c1_env` the primary path holds one valid
codec (its walk is nonempty) and only the secondary path's loader
extension fails, yet `init_context` aborts with the environment-update
error and the registry is left empty — the failure is not merely logged
and the primary path's descriptors are not retained. -/
theorem c1_counterexample :
    (init_context c1_env { initialized := false, codec_info_node := [] } 0).1 =
        SailStatus.errorEnvUpdate ∧
      (init_context c1_env
          { initialized := false, codec_info_node := [] } 0).2.codec_info_node = [] ∧
      walk_codecs_path c1_env (sail_codecs_path c1_env) ≠ [] :=
  ⟨by decide, by decide, by decide⟩

/-- C1 (amended): failure to extend the dynamic-loader search path for
the secondary (user-configured) codecs path aborts initialization with
`EnvironmentUpdateError` exactly like a primary-path failure; both
extensions run before any directory walk, so the registry chain is left
as it was and gains no descriptors. -/
theorem c1_amended (env : Env) (ctx : sail_context) (flags : Nat) (p : List Char)
    (hinit : ctx.initialized = false)
    (hour : update_lib_path env (sail_codecs_path env) = SailStatus.ok)
    (hclient : client_codecs_path env = some p)
    (htheir : update_lib_path env p = SailStatus.errorEnvUpdate) :
    init_context env ctx flags =
      (SailStatus.errorEnvUpdate,
        { initialized := true, codec_info_node := ctx.codec_info_node }) := by
  have hne : ¬ ctx.initialized = true := by simp [hinit]
  have h2 : client_update_status env = SailStatus.errorEnvUpdate := by
    unfold client_update_status
    rw [hclient]
    dsimp only
    exact htheir
  unfold init_context
  rw [if_neg hne, if_neg (by simp [hour]), if_pos (by simp [h2]), h2]

/-- C1 witness for the amended claim, at `c1_env`. -/
theorem c1_witness :
    init_context c1_env { initialized := false, codec_info_node := [] } 0 =
      (SailStatus.errorEnvUpdate,
        { initialized := true, codec_info_node := [] }) :=
  c1_amended c1_env _ 0 "/user".data rfl (by decide) rfl (by decide)

/-- C2: `ensure_initialized` (the `initialized`-guarded `init_context`)
is idempotent — a second call on the context produced by any first call
returns `SAIL_OK` immediately with the context, hence the registry
contents and order, unchanged. -/
theorem c2_ensure_initialized_idempotent (env : Env) (ctx : sail_context)
    (flags flags2 : Nat) :
    init_context env (init_context env ctx flags).2 flags2 =
      (SailStatus.ok, (init_context env ctx flags).2) :=
  init_context_snd_call env ctx flags flags2

/-- C3: for every metadata path decomposing around the first occurrence
of `".codec.info"`, the derived module path is the text preceding that
occurrence followed by `".so"`; for every path without the suffix the
derivation fails with an error status instead of producing a path. -/
theorem c3_module_path_derivation :
    (∀ p pre post : List Char,
        p = pre ++ CODEC_INFO_SUFFIX ++ post →
        (∀ j, j < pre.length → CODEC_INFO_SUFFIX.isPrefixOf (p.drop j) = false) →
        derive_codec_full_path p = Except.ok (pre ++ ".so".data)) ∧
      ∀ p : List Char,
        (∀ pre post : List Char, p ≠ pre ++ CODEC_INFO_SUFFIX ++ post) →
        derive_codec_full_path p = Except.error SailStatus.errorMemoryAllocation := by
  constructor
  · intro p pre post hdec hmin
    rw [derive_eq_of_strstr (strstr_eq_of_first_occurrence hdec hmin)]
    congr 1
    subst hdec
    rw [List.append_assoc, List.take_left]
  · intro p hno
    cases hs : strstr p CODEC_INFO_SUFFIX with
    | none =>
      unfold derive_codec_full_path
      rw [hs]
    | some i =>
      obtain ⟨r, hr⟩ := exists_of_isPrefixOf (strstr_imp_prefixOf hs)
      have hdec : p = p.take i ++ CODEC_INFO_SUFFIX ++ r := by
        conv_lhs => rw [← List.take_append_drop i p]
        rw [hr, List.append_assoc]
      exact absurd hdec (hno _ _)

/-- C3 witness: `"/x/jpeg.codec.info"` derives `"/x/jpeg.so"`, and a
path without the suffix fails. -/
theorem c3_witness :
    derive_codec_full_path "/x/jpeg.codec.info".data =
        Except.ok ("/x/jpeg".data ++ ".so".data) ∧
      derive_codec_full_path "/x/jpeg".data =
        Except.error SailStatus.errorMemoryAllocation :=
  ⟨c3_module_path_derivation.1 _ "/x/jpeg".data [] (by decide) (by decide),
   c3_module_path_derivation.2 _ (no_decomposition_of_strstr_none (by decide))⟩

/-- C4: with a listable primary directory and no secondary path, the
registry after initialization is exactly the descriptors of the valid
entries (path builds, regular file, metadata suffix present, metadata
parses), in enumeration order — every malformed entry is skipped
individually and the walk continues. -/
theorem c4_partial_failure_isolation (env : Env) (ctx : sail_context) (flags : Nat)
    (entries : List (List Char))
    (hinit : ctx.initialized = false)
    (hreg : ctx.codec_info_node = [])
    (hour : update_lib_path env (sail_codecs_path env) = SailStatus.ok)
    (hclient : client_codecs_path env = none)
    (hlist : env.listDir (sail_codecs_path env) = some entries) :
    (init_context env ctx flags).1 = SailStatus.ok ∧
      (init_context env ctx flags).2.codec_info_node =
        (entries.filter (spec_entry_ok env (sail_codecs_path env))).map
          (spec_entry_descriptor env (sail_codecs_path env)) := by
  have h2 : client_update_status env = SailStatus.ok := by
    unfold client_update_status
    rw [hclient]
  rw [init_context_success env ctx flags hinit hour h2]
  refine ⟨rfl, ?_⟩
  have hd : discovered env =
      (entries.filter (spec_entry_ok env (sail_codecs_path env))).map
        (spec_entry_descriptor env (sail_codecs_path env)) := by
    rw [discovered_eq, hclient, walk_codecs_path_eq env _ entries hlist]
    simp
  dsimp only
  rw [hd, hreg]
  exact ite_isEmpty_self _

/-- C4 witness: at `c4_env` (two valid entries among a wrong-suffix
file, an unparsable metadata file and a failed path build) the registry
holds exactly the valid descriptors, two of them. -/
theorem c4_witness :
    ((init_context c4_env { initialized := false, codec_info_node := [] } 0).1 =
        SailStatus.ok ∧
      (init_context c4_env
          { initialized := false, codec_info_node := [] } 0).2.codec_info_node =
        ((["jpeg.codec.info".data, "readme.txt".data, "broken.codec.info".data,
              "oom.codec.info".data, "png.codec.info".data].filter
            (spec_entry_ok c4_env (sail_codecs_path c4_env))).map
          (spec_entry_descriptor c4_env (sail_codecs_path c4_env)))) ∧
      (init_context c4_env
          { initialized := false, codec_info_node := [] } 0).2.codec_info_node.length = 2 :=
  ⟨c4_partial_failure_isolation c4_env _ 0 _ rfl rfl (by decide) rfl rfl, by decide⟩

/-- C5: when the primary directory cannot be enumerated, initialization
still succeeds, that directory contributes zero descriptors, and
discovery continues with the secondary path's contribution. -/
theorem c5_dir_list_failure_tolerated (env : Env) (ctx : sail_context) (flags : Nat)
    (hinit : ctx.initialized = false)
    (hreg : ctx.codec_info_node = [])
    (hour : update_lib_path env (sail_codecs_path env) = SailStatus.ok)
    (hclient : client_update_status env = SailStatus.ok)
    (hfail : env.listDir (sail_codecs_path env) = none) :
    (init_context env ctx flags).1 = SailStatus.ok ∧
      (init_context env ctx flags).2.codec_info_node =
        (match client_codecs_path env with
         | none => []
         | some p => walk_codecs_path env p) := by
  rw [init_context_success env ctx flags hinit hour hclient]
  refine ⟨rfl, ?_⟩
  have hw : walk_codecs_path env (sail_codecs_path env) = [] := by
    unfold walk_codecs_path
    rw [hfail]
  have hd : discovered env =
      (match client_codecs_path env with
       | none => []
       | some p => walk_codecs_path env p) := by
    rw [discovered_eq, hw]
    simp
  dsimp only
  rw [hd, hreg]
  exact ite_isEmpty_self _

/-- C5 witness: at `c5_env` the primary directory is unlistable and the
secondary path contributes its single valid codec. -/
theorem c5_witness :
    ((init_context c5_env { initialized := false, codec_info_node := [] } 0).1 =
        SailStatus.ok ∧
      (init_context c5_env
          { initialized := false, codec_info_node := [] } 0).2.codec_info_node =
        (match client_codecs_path c5_env with
         | none => []
         | some p => walk_codecs_path c5_env p)) ∧
      (init_context c5_env
          { initialized := false, codec_info_node := [] } 0).2.codec_info_node.length = 1 :=
  ⟨c5_dir_list_failure_tolerated c5_env _ 0 rfl rfl (by decide) (by decide) rfl,
   by decide⟩

/-- C6: the registry after initialization lists the primary path's valid
descriptors first and the secondary path's after them, each group in
directory-enumeration order; the chain is the append of the two ordered
groups (modelled as a Lean list, it is singly linked and acyclic by
construction). -/
theorem c6_order_preservation (env : Env) (ctx : sail_context) (flags : Nat)
    (their : List Char) (e1 e2 : List (List Char))
    (hinit : ctx.initialized = false)
    (hreg : ctx.codec_info_node = [])
    (hour : update_lib_path env (sail_codecs_path env) = SailStatus.ok)
    (hclient : client_codecs_path env = some their)
    (htheir : update_lib_path env their = SailStatus.ok)
    (hl1 : env.listDir (sail_codecs_path env) = some e1)
    (hl2 : env.listDir their = some e2) :
    (init_context env ctx flags).1 = SailStatus.ok ∧
      (init_context env ctx flags).2.codec_info_node =
        (e1.filter (spec_entry_ok env (sail_codecs_path env))).map
            (spec_entry_descriptor env (sail_codecs_path env)) ++
          (e2.filter (spec_entry_ok env their)).map
            (spec_entry_descriptor env their) := by
  have h2 : client_update_status env = SailStatus.ok := by
    unfold client_update_status
    rw [hclient]
    dsimp only
    exact htheir
  rw [init_context_success env ctx flags hinit hour h2]
  refine ⟨rfl, ?_⟩
  have hd : discovered env =
      (e1.filter (spec_entry_ok env (sail_codecs_path env))).map
          (spec_entry_descriptor env (sail_codecs_path env)) ++
        (e2.filter (spec_entry_ok env their)).map
          (spec_entry_descriptor env their) := by
    rw [discovered_eq, hclient]
    dsimp only
    rw [walk_codecs_path_eq env _ e1 hl1, walk_codecs_path_eq env _ e2 hl2]
  dsimp only
  rw [hd, hreg]
  exact ite_isEmpty_self _

/-- C6 witness: at `c6_env` the registry is jpeg, png (primary order)
then webp (secondary), three descriptors. -/
theorem c6_witness :
    ((init_context c6_env { initialized := false, codec_info_node := [] } 0).1 =
        SailStatus.ok ∧
      (init_context c6_env
          { initialized := false, codec_info_node := [] } 0).2.codec_info_node =
        ((["jpeg.codec.info".data, "png.codec.info".data].filter
              (spec_entry_ok c6_env (sail_codecs_path c6_env))).map
            (spec_entry_descriptor c6_env (sail_codecs_path c6_env)) ++
          (["webp.codec.info".data].filter (spec_entry_ok c6_env "/user".data)).map
            (spec_entry_descriptor c6_env "/user".data))) ∧
      (init_context c6_env
          { initialized := false, codec_info_node := [] } 0).2.codec_info_node.length = 3 :=
  ⟨c6_order_preservation c6_env _ 0 "/user".data _ _ rfl rfl (by decide) rfl
      (by decide) rfl rfl,
   by decide⟩

/-- C7: `is_valid` holds exactly when `level_min < level_max` and
`level_min ≤ level_default ≤ level_max`; the three example ranges
behave as the spec states, and `level_step` never affects validity. -/
theorem c7_compression_level_validity :
    (∀ cl : sail_compression_level,
        is_valid cl = true ↔
          cl.level_min < cl.level_max ∧
            cl.level_min ≤ cl.level_default ∧ cl.level_default ≤ cl.level_max) ∧
      is_valid { level_min := 1, level_max := 9, level_default := 6, level_step := 1 } = true ∧
      is_valid { level_min := 5, level_max := 5, level_default := 5, level_step := 1 } = false ∧
      is_valid { level_min := 0, level_max := 10, level_default := 15, level_step := 1 } = false ∧
      ∀ (cl : sail_compression_level) (s : Rat),
        is_valid { cl with level_step := s } = is_valid cl := by
  refine ⟨?_, by decide, by decide, by decide, fun cl s => rfl⟩
  intro cl
  simp [is_valid, and_assoc, ge_iff_le]

/-- C8: destroy clears the thread-local slot (fetch then assigns no
context), returns `SAIL_OK`, and a second destroy on the empty slot is
the same successful no-op. -/
theorem c8_destroy_clears_singleton (alloc_ok : Bool) (tls : Option sail_context) :
    (control_tls_context alloc_ok tls SailContextAction.destroy).tls = none ∧
      (control_tls_context alloc_ok tls SailContextAction.destroy).status =
        SailStatus.ok ∧
      (control_tls_context alloc_ok
          (control_tls_context alloc_ok tls SailContextAction.destroy).tls
          SailContextAction.fetch).assigned = some none ∧
      control_tls_context alloc_ok
          (control_tls_context alloc_ok tls SailContextAction.destroy).tls
          SailContextAction.destroy =
        { status := SailStatus.ok, assigned := none, tls := none } :=
  ⟨rfl, rfl, rfl, rfl⟩

/-- C9: `init_context` marks the context initialized before any
discovery work, so even when it returns an error the context is
initialized, the registry chain is exactly what it was, and every
subsequent call returns `SAIL_OK` immediately with that context
unchanged — discovery is never retried. -/
theorem c9_initialized_set_before_discovery (env : Env) (ctx : sail_context)
    (flags flags2 : Nat) (hinit : ctx.initialized = false) :
    (init_context env ctx flags).2.initialized = true ∧
      ((init_context env ctx flags).1 ≠ SailStatus.ok →
        (init_context env ctx flags).2.codec_info_node = ctx.codec_info_node) ∧
      init_context env (init_context env ctx flags).2 flags2 =
        (SailStatus.ok, (init_context env ctx flags).2) :=
  ⟨init_context_result_initialized env ctx flags,
   fun herr => init_context_error_preserves_chain env ctx flags hinit herr,
   init_context_snd_call env ctx flags flags2⟩

/-- C9 witness, at `c9_env` where the primary loader-path extension
fails. -/
theorem c9_witness :
    (init_context c9_env { initialized := false, codec_info_node := [] } 0).2.initialized =
        true ∧
      ((init_context c9_env { initialized := false, codec_info_node := [] } 0).1 ≠
          SailStatus.ok →
        (init_context c9_env
            { initialized := false, codec_info_node := [] } 0).2.codec_info_node = []) ∧
      init_context c9_env
          (init_context c9_env { initialized := false, codec_info_node := [] } 0).2 0 =
        (SailStatus.ok,
          (init_context c9_env { initialized := false, codec_info_node := [] } 0).2) :=
  c9_initialized_set_before_discovery c9_env _ 0 0 rfl

/-- C10: an entry is selected whenever `".codec.info"` occurs anywhere
in its full path — not only as a filename suffix — and the module path
is the full path cut at the first occurrence, followed by `".so"`;
parsing is attempted and its result registered. -/
theorem c10_selection_by_substring (env : Env) (codecs_path name : List Char)
    (i : Nat) (ci : sail_codec_info)
    (hbp : env.build_path_ok codecs_path name = true)
    (hfile : env.is_file (codecs_path ++ "/".data ++ name) = true)
    (hocc : strstr (codecs_path ++ "/".data ++ name) CODEC_INFO_SUFFIX = some i)
    (hread : env.codec_read_info (codecs_path ++ "/".data ++ name) = Except.ok ci) :
    init_context_entry env codecs_path name =
      some { ci with
             path := (codecs_path ++ "/".data ++ name).take i ++ ".so".data } := by
  unfold init_context_entry build_full_path build_codec_from_codec_info
  rw [if_pos hbp]
  dsimp only
  rw [if_pos hfile, hocc, derive_eq_of_strstr hocc, hread]
  simp

/-- C10 witness: the regular file `/x/jpeg.codec.info.bak`, whose
metadata suffix is not a filename suffix, is selected and derives the
module path `/x/jpeg.so`. -/
theorem c10_witness :
    init_context_entry c10_env "/x".data "jpeg.codec.info.bak".data =
      some { name := "jpeg".data, description := "JPEG".data, version := "1".data,
             path := "/x/jpeg.so".data } :=
  (c10_selection_by_substring c10_env "/x".data "jpeg.codec.info.bak".data 7
      { name := "jpeg".data, description := "JPEG".data, version := "1".data,
        path := [] }
      rfl rfl (by decide) rfl).trans (by decide)

end Sail
